import Mathlib

/-!
# Verification of the krummstab submission ingestion and assignment pipeline

Shallow embedding of the core of the krummstab grading tool: archive
extraction, directory normalization, roster matching and the deterministic
tutor-assignment partitioner.  The Python sources embedded here are
`adam-script.py` (the standalone revision: `get_relevant_teams`,
`get_adam_id_to_team_dict`, `extract_adam_zip`, `flatten_team_dirs`) and the
`krummstab` package (`sheets.py`, `submissions.py`, `teams.py`,
`students.py`, `commands/init.py`).

Python library calls are modelled as pure Lean functions: `random.Random`'s
Mersenne Twister word stream is replaced by a linear congruential generator
(every theorem below depends only on the stream being a pure deterministic
function of the seed, never on its distribution), and `hashlib.sha256` by a
deterministic fold over the characters of the hashed text (the theorems
depend only on the seed being a stable function of the text).
-/

/-- The hard failures of the pipeline.  `logging.critical` calls
`sys.exit` from the custom handler installed by `configure_logging`, so a
critical log message aborts the run; Python exceptions (`IndexError`,
`AssertionError`, `AttributeError`) abort it likewise.  Aborts are modelled
as `Except.error` values. -/
inductive PipelineError where
  | destinationExists
  | unexpectedZipStructure
  | unknownStudent (email : String)
  | corruptMetadata
  | assertionFailed
  | indexError
  | attributeError
  deriving DecidableEq

deriving instance DecidableEq for Except

/-- The soft warnings of the pipeline (`logging.warning`: the run
continues). -/
inductive Warning where
  | unexpectedSheetDirName (name : String)
  | duplicateTeamSubmission (existingId newId : String)
  | multipleSubmissions (dirName : String)
  | emptySubmission (dirName : String)
  deriving DecidableEq

namespace PyRandom

/-- Models the word stream of CPython's `random.Random(seed)`.  The Mersenne
Twister is replaced by a 64-bit linear congruential generator; the state is
the last word produced. -/
def lcgNext (s : Nat) : Nat :=
  (6364136223846793005 * s + 1442695040888963407) % (2 ^ 64)

/-- Models `Random._randbelow(n)`: draw the next value below `n`
deterministically from the generator state (CPython's rejection sampling is
replaced by a remainder, which preserves every property used below). -/
def randbelow (s n : Nat) : Nat × Nat :=
  let s' := lcgNext s
  (s' % n, s')

/-- One in-place swap `x[i], x[j] = x[j], x[i]` on a list. -/
def swapAt (l : List α) (i j : Nat) : List α :=
  match l[i]?, l[j]? with
  | some a, some b => (l.set i b).set j a
  | _, _ => l

/-- The body of CPython's `Random.shuffle` loop at index `i`:
`j = _randbelow(i + 1); x[i], x[j] = x[j], x[i]`, threading the generator
state. -/
def shuffleStep (st : Nat × List α) (i : Nat) : Nat × List α :=
  let p := randbelow st.1 (i + 1)
  (p.2, swapAt st.2 i p.1)

/-- Models `random.Random(seed).shuffle(l)`:
`for i in reversed(range(1, len(x))): j = _randbelow(i + 1); x[i], x[j] = x[j], x[i]`. -/
def shuffle (seed : Nat) (l : List α) : List α :=
  ((List.range' 1 (l.length - 1)).reverse.foldl shuffleStep (seed, l)).2


end PyRandom

/-- Helper for `takeStep`: take the head once the skip counter reaches `0`,
then skip the next `n - 1` elements. -/
def takeStepAux (n : Nat) : List α → Nat → List α
  | [], _ => []
  | x :: xs, 0 => x :: takeStepAux n xs (n - 1)
  | _ :: xs, c + 1 => takeStepAux n xs c

/-- The Python slice `l[0::n]`: every `n`-th element of `l`, starting at the
head. -/
def takeStep (n : Nat) (l : List α) : List α := takeStepAux n l 0

/-- The chunking `[l[i::n] for i in range(n)]` from `get_relevant_teams`
(marking mode "random"). -/
def pyChunks (l : List α) (n : Nat) : List (List α) :=
  (List.range n).map (fun i => takeStep n (l.drop i))

namespace AdamScript

/-- Models `Student = tuple[str, str, str]` (first name, last name, email) from
adam-script.py. -/
abbrev Student := String × String × String

/-- Models `Team = list[Student]` from adam-script.py. -/
abbrev Team := List Student

/-- Models the seed derivation of `get_relevant_teams`:
`seed = int(hashlib.sha256(args.adam_sheet_name.encode("utf-8")).hexdigest(), 16)`.
SHA-256 itself is modelled by a deterministic fold over the characters of
the sheet name; the theorems below depend only on the seed being a stable,
pure function of the text (never time-based), not on the hash value. -/
def sheetNameSeed (name : String) : Nat :=
  name.data.foldl (fun h c => (h * 131 + c.toNat + 1) % (2 ^ 256)) 5381

/-- Models `shuffled_teams = [team for _, team in args.team_dir_to_team.items()]`:
the matched teams, in the stable order of the persisted map. -/
def matchedTeams (teamDirToTeam : List (String × Team)) : List Team :=
  teamDirToTeam.map Prod.snd

/-- The shuffle `random.Random(seed).shuffle(shuffled_teams)` with the sheet-name
seed. -/
def shuffledTeams (adamSheetName : String)
    (teamDirToTeam : List (String × Team)) : List Team :=
  PyRandom.shuffle (sheetNameSeed adamSheetName) (matchedTeams teamDirToTeam)

/-- The chunks `[shuffled_teams[i::num_tutors] for i in range(num_tutors)]`
from `get_relevant_teams` (marking mode "random"). -/
def randomChunks (adamSheetName : String)
    (teamDirToTeam : List (String × Team)) (tutorList : List String) :
    List (List Team) :=
  pyChunks (shuffledTeams adamSheetName teamDirToTeam) tutorList.length

/-- Models `get_relevant_teams()` for `marking_mode == "random"`:
shuffle the matched teams with the sheet-name seed, cut the shuffled list
into `num_tutors` strided chunks, shuffle the tutor list with the *same*
seed, and hand chunk `i` to shuffled tutor `i`
(`chunks[shuffled_tutors.index(tutor_name)]`).  Returns `none` where the
Python raises (`tutor_name` absent: `list.index` raises `ValueError`). -/
def getRelevantTeamsRandom (adamSheetName : String)
    (teamDirToTeam : List (String × Team)) (tutorList : List String)
    (tutorName : String) : Option (List Team) :=
  let chunks := randomChunks adamSheetName teamDirToTeam tutorList
  let shuffledTutors := PyRandom.shuffle (sheetNameSeed adamSheetName) tutorList
  match shuffledTutors.findIdx? (fun t => t == tutorName) with
  | some idx => chunks[idx]?
  | none => none

/-- Models Python's `submission_email in student` from
`get_adam_id_to_team_dict`: membership in the `(first, last, email)` tuple
is equality with one of its components. -/
def studentContains (email : String) (s : Student) : Bool :=
  email == s.1 || email == s.2.1 || email == s.2.2

/-- Models `teams = [team for team in config.get().teams
if any(submission_email in student for student in team)]` from
`get_adam_id_to_team_dict`. -/
def matchingTeams (rosterTeams : List Team) (email : String) : List Team :=
  rosterTeams.filter (fun team => team.any (studentContains email))

/-- The per-directory matching step of `get_adam_id_to_team_dict`: no
matching roster team is the `UnknownStudent` critical error ("is not
assigned to a team"); `assert len(teams) == 1` aborts when several teams
match; otherwise the unique match `teams[0]` is recorded. -/
def matchSubmission (rosterTeams : List Team) (email : String) :
    Except PipelineError Team :=
  match matchingTeams rosterTeams email with
  | [] => .error (.unknownStudent email)
  | [t] => .ok t
  | _ :: _ :: _ => .error .assertionFailed

/-- The unique roster match of an email, when it exists. -/
def resolveTeam (rosterTeams : List Team) (email : String) : Option Team :=
  match matchingTeams rosterTeams email with
  | [t] => some t
  | _ => none

/-- Python `dict.update({k: v})` on a dict kept in insertion order: replace
the value in place if the key is present, else append the binding. -/
def dictUpdate (d : List (String × Team)) (k : String) (v : Team) :
    List (String × Team) :=
  if d.any (fun p => p.1 == k) then
    d.map (fun p => if p.1 == k then (k, v) else p)
  else d ++ [(k, v)]

/-- The main loop of `get_adam_id_to_team_dict` over the submission
directories, each given as an `(ADAM id, uploader email)` pair: match the
email against the roster, emit a `duplicateTeamSubmission` warning for
every already recorded id whose team equals the new match ("There are
multiple submissions for team ... under separate ADAM IDs"), record the id
in the dict, and continue; an unmatched email aborts the whole run. -/
def getAdamIdToTeamDict (rosterTeams : List Team) :
    List (String × String) → List (String × Team) → List Warning →
    Except PipelineError (List (String × Team) × List Warning)
  | [], dict, warns => .ok (dict, warns)
  | (teamId, email) :: rest, dict, warns =>
    match matchSubmission rosterTeams email with
    | .error e => .error e
    | .ok t =>
      getAdamIdToTeamDict rosterTeams rest (dictUpdate dict teamId t)
        (warns ++ (dict.filter (fun p => p.2 == t)).map
          (fun p => Warning.duplicateTeamSubmission p.1 teamId))

/-- The entry a submission contributes to the final id-to-team dict. -/
def resolvedEntry (rosterTeams : List Team) (p : String × String) :
    String × Team :=
  (p.1, (resolveTeam rosterTeams p.2).getD [])

/-- Python `str.split(sep)` with a one-character separator: split at every
occurrence, keeping empty fields. -/
def pySplit (sep : Char) : List Char → List (List Char)
  | [] => [[]]
  | c :: rest =>
    let ts := pySplit sep rest
    if c = sep then [] :: ts
    else (c :: ts.headD []) :: ts.tail

/-- The key-assignment step of `get_adam_id_to_team_dict`:
`team_id = team_dir.name.split(" ")[1]`, after which the directory is
renamed to just `team_id`; a name with no second space-separated field
raises `IndexError`.  Directory names are modelled as character lists. -/
def keyAssignName (name : List Char) : Except PipelineError (List Char) :=
  match (pySplit ' ' name)[1]? with
  | some teamId => .ok teamId
  | none => .error .indexError

/-- Demo roster teams (four distinct single-member teams). -/
def teamA : Team := [("Alice", "Arnold", "alice@uni.ch")]

def teamB : Team := [("Bob", "Baker", "bob@uni.ch")]

def teamC : Team := [("Carol", "Curie", "carol@uni.ch")]

def teamD : Team := [("Dave", "Darwin", "dave@uni.ch")]

/-- Demo `team_dir_to_team` map with four matched teams. -/
def demoDirs : List (String × Team) :=
  [("10001", teamA), ("10002", teamB), ("10003", teamC), ("10004", teamD)]

/-- Demo two-member roster team {Alice, Bob}. -/
def teamAB : Team :=
  [("Alice", "Arnold", "alice@uni.ch"), ("Bob", "Baker", "bob@uni.ch")]

/-- Demo map with a duplicate submission: team A recorded under two
different ADAM ids (the warn-and-continue outcome of
`get_adam_id_to_team_dict`). -/
def dupDirs : List (String × Team) :=
  [("30001", teamA), ("30002", teamA), ("30003", teamB), ("30004", teamC)]

end AdamScript


namespace Krummstab

/-- Models `Student` from krummstab/students.py: first name, last name, email. -/
structure Student where
  first_name : String
  last_name : String
  email : String
  deriving DecidableEq

/-- Models `Team` from krummstab/teams.py: a member list and the optional
external ADAM id (absent for roster-defined teams). -/
structure Team where
  members : List Student
  adam_id : Option String

/-- Models `Team.__init__`: members are stored sorted (`sorted(members)`
keyed by `Student.__lt__`, i.e. ascending email). -/
def mkTeam (members : List Student) (adam_id : Option String) : Team :=
  ⟨members.mergeSort (fun x y => decide (x.email ≤ y.email)), adam_id⟩

/-- Models `Student.__eq__` from krummstab/students.py: equality is by
email only. -/
def studentEq (a b : Student) : Bool := a.email == b.email

/-- Python `==` on two lists of Students: equal lengths and elementwise
`Student.__eq__`. -/
def studentListEq : List Student → List Student → Bool
  | [], [] => true
  | x :: xs, y :: ys => studentEq x y && studentListEq xs ys
  | _, _ => false

/-- Models `Team.__eq__` from krummstab/teams.py:
`sorted(self.members) == sorted(other.members)` — both member lists are
sorted by `Student.__lt__` (email) and compared elementwise by
`Student.__eq__` (email); `adam_id` and names never enter. -/
def teamEq (a b : Team) : Bool :=
  studentListEq (a.members.mergeSort (fun x y => decide (x.email ≤ y.email)))
    (b.members.mergeSort (fun x y => decide (x.email ≤ y.email)))

/-- The sorted list of a team's member email addresses (the claimed
characterization of team equality). -/
def sortedEmails (a : Team) : List String :=
  (a.members.map Student.email).mergeSort (fun x y => decide (x ≤ y))

/-- A JSON value, the model of what `json.load`/`json.dump` read and
write. -/
inductive Json where
  | null
  | bool (b : Bool)
  | num (n : Int)
  | str (s : String)
  | arr (elems : List Json)
  | obj (fields : List (String × Json))

/-- The two fields `Sheet._load` reads off the sheet record. -/
structure SheetRecord where
  adam_sheet_name : Option Json
  exercises : Option Json

/-- Models `Sheet._load` (krummstab/sheets.py): `json.load` the record and
read the two fields with `dict.get` — a missing key yields `None` and no
shape validation of any kind is performed; `.get` on a non-object value
raises `AttributeError`. -/
def sheetLoad (j : Json) : Except PipelineError SheetRecord :=
  match j with
  | .obj fields =>
    .ok ⟨List.lookup "adam_sheet_name" fields, List.lookup "exercises" fields⟩
  | _ => .error .attributeError

/-- Modelled from the spec: the repository ships no schema for the
sheet-level record `sheet.json`; per the spec's persisted-output shape
`{ sheet_name, exercise_numbers?, ... }` a schema-valid sheet record must
at least be an object whose "adam_sheet_name" field is a string. -/
def sheetRecordSchemaValid (j : Json) : Bool :=
  match j with
  | .obj fields =>
    match List.lookup "adam_sheet_name" fields with
    | some (.str _) => true
    | _ => false
  | _ => false

/-- Modelled from the spec: the packaged `submission-info-schema.json` is
not among the repository sources; from the record written by
`create_submission_info_file` (`{"team": [[first, last, email], ...],
"adam_id": id, "relevant": bool}`) a schema-valid per-submission record is
an object with those three fields of those shapes. -/
def submissionRecordSchemaValid (j : Json) : Bool :=
  match j with
  | .obj fields =>
    (match List.lookup "team" fields with
     | some (.arr members) => members.all (fun m =>
         match m with
         | .arr [.str _, .str _, .str _] => true
         | _ => false)
     | _ => false)
    && (match List.lookup "adam_id" fields with
        | some (.str _) => true
        | _ => false)
    && (match List.lookup "relevant" fields with
        | some (.bool _) => true
        | _ => false)
  | _ => false

/-- Parse a `[first, last, email]` member entry of a schema-checked
record. -/
def parseStudent (j : Json) : Student :=
  match j with
  | .arr [.str f, .str l, .str e] => ⟨f, l, e⟩
  | _ => ⟨"", "", ""⟩

/-- Models `Submission._load` (krummstab/submissions.py): the record is
validated against the submission-info schema first (`jsonschema.validate`);
a `ValidationError` is reported via `logging.critical` ("The
submission.json file does not have the right format"), aborting the run —
the spec's `CorruptMetadata`.  On success the `Team` and the relevance flag
are built from the fields. -/
def submissionLoad (j : Json) : Except PipelineError (Team × Bool) :=
  if submissionRecordSchemaValid j then
    match j with
    | .obj fields =>
      let members := match List.lookup "team" fields with
        | some (.arr ms) => ms.map parseStudent
        | _ => []
      let adamId := match List.lookup "adam_id" fields with
        | some (.str s) => some s
        | _ => none
      let relevant := match List.lookup "relevant" fields with
        | some (.bool b) => b
        | _ => false
      .ok (mkTeam members adamId, relevant)
    | _ => .error .corruptMetadata
  else .error .corruptMetadata

/-- An entry of a directory tree (or of a zip archive): a file or a
directory with children. -/
inductive Entry where
  | file (name : String)
  | dir (name : String) (children : List Entry)

def Entry.entryName : Entry → String
  | .file n => n
  | .dir n _ => n

def Entry.isDir : Entry → Bool
  | .dir _ _ => true
  | .file _ => false

/-- Models `is_macos_path`: `"__MACOSX" in path or ".DS_Store" in path`. -/
def isMacosPath (p : String) : Bool :=
  decide ("__MACOSX".data.IsInfix p.data)
    || decide (".DS_Store".data.IsInfix p.data)

/-- Models `filtered_extract`: extract every entry except macOS junk; the
zip file is modelled as the list of its root entries. -/
def filteredExtract (entries : List Entry) : List Entry :=
  entries.filter (fun e => !isMacosPath e.entryName)

/-- The check `g.suffix == ".xlsx"` on a file name. -/
def hasXlsxSuffix (n : String) : Bool := List.isSuffixOf ".xlsx".data n.data

/-- Models `extract_adam_zip` from krummstab/commands/init.py: after junk
filtering the extracted root must hold exactly one entry, a directory (the
sheet directory named by ADAM) — `if len(children) != 1 or not
children[0].is_dir()` is `errors.unexpected_zip_structure`, a critical
abort.  Inside it exactly two entries, an `.xlsx` spreadsheet and one
directory, are expected (same error otherwise); then an existing
destination is the `DestinationExists` critical error, and finally the
inner directory's contents are hoisted up next to the spreadsheet. -/
def extractAdamZip (zipEntries : List Entry) (targetExists : Bool) :
    Except PipelineError (String × List Entry) :=
  match filteredExtract zipEntries with
  | [Entry.dir sheetName grandChildren] =>
    if grandChildren.length == 2
        && grandChildren.any (fun g => !g.isDir && hasXlsxSuffix g.entryName)
        && grandChildren.any Entry.isDir then
      if targetExists then .error .destinationExists
      else
        match grandChildren.filter Entry.isDir with
        | [Entry.dir _ submissions] =>
          .ok (sheetName,
            grandChildren.filter (fun g => !g.isDir) ++ submissions)
        | _ => .error .assertionFailed
    else .error .unexpectedZipStructure
  | _ => .error .unexpectedZipStructure

/-- The structure guard of `extract_adam_zip`: the filtered root consists
of exactly one directory. -/
def singleDirRoot : List Entry → Bool
  | [e] => e.isDir
  | _ => false

/-- The email encoded in a member-upload subfolder name:
`submission_dir.name.split("_")[-2]` (an `IndexError`, modelled as `none`,
if the name has fewer than two fields). -/
def submissionEmail (dirName : String) : Option String :=
  let parts := dirName.splitOn "_"
  if parts.length < 2 then none else parts[parts.length - 2]?

/-- Read the `(ADAM id, uploader email)` pair off one submission
directory, as `get_adam_id_to_team_dict` does: the id is
`team_dir.name.split(" ")[1]` and the email comes from the first
member-upload subfolder `list(team_dir.iterdir())[0]`. -/
def parseSubmission (e : Entry) : Except PipelineError (String × String) :=
  match e with
  | .dir nm (firstChild :: _) =>
    match (AdamScript.pySplit ' ' nm.data)[1]?,
        submissionEmail firstChild.entryName with
    | some tid, some email => .ok (String.mk tid, email)
    | _, _ => .error .indexError
  | _ => .error .indexError

/-- Parse all submission directories (files are skipped:
`if not team_dir.is_dir(): continue`). -/
def parseSubmissions (entries : List Entry) :
    Except PipelineError (List (String × String)) :=
  (entries.filter Entry.isDir).mapM parseSubmission

/-- What a successful `init` run leaves behind: the sheet name and the
directory-key-to-team map that `create_sheet_info_file` then persists,
plus the collected warnings. -/
structure InitOutcome where
  adamSheetName : String
  teamDirToTeam : List (String × AdamScript.Team)
  warnings : List Warning

/-- The `init` pipeline up to the creation of the sheet metadata record:
extraction (with the structure guard), parsing of the submission directory
names, and roster matching.  The metadata record only exists inside the
`.ok` outcome, produced after every guard has passed; an extraction
failure short-circuits the whole chain, before any assignment decision is
made or any record written. -/
def initPipeline (zipEntries : List Entry) (targetExists : Bool)
    (rosterTeams : List AdamScript.Team) :
    Except PipelineError InitOutcome := do
  let (sheetName, submissionEntries) ← extractAdamZip zipEntries targetExists
  let subs ← parseSubmissions submissionEntries
  let (dict, warns) ← AdamScript.getAdamIdToTeamDict rosterTeams subs [] []
  .ok ⟨sheetName, dict, warns⟩

end Krummstab

/-! ## General lemmas: shuffling and chunking -/

namespace PyRandom
theorem cons_set_perm : ∀ (xs : List α) (m : Nat) (b c : α), xs[m]? = some b →
    List.Perm (b :: xs.set m c) (c :: xs)
  | y :: ys, 0, b, c, h => by
    simp only [List.getElem?_cons_zero, Option.some.injEq] at h
    subst h
    simpa [List.set] using List.Perm.swap c y ys
  | y :: ys, m + 1, b, c, h => by
    simp only [List.getElem?_cons_succ] at h
    have h1 : List.Perm (b :: y :: ys.set m c) (y :: b :: ys.set m c) :=
      List.Perm.swap y b _
    have h2 : List.Perm (y :: b :: ys.set m c) (y :: c :: ys) :=
      (cons_set_perm ys m b c h).cons y
    have h3 : List.Perm (y :: c :: ys) (c :: y :: ys) := List.Perm.swap c y ys
    have hset : (y :: ys).set (m + 1) c = y :: ys.set m c := by simp [List.set]
    rw [hset]
    exact h1.trans (h2.trans h3)

theorem swapAt_perm : ∀ (l : List α) (i j : Nat), List.Perm (swapAt l i j) l
  | [], i, j => by simp [swapAt]
  | x :: xs, 0, 0 => by simp [swapAt, List.set]
  | x :: xs, 0, j + 1 => by
    rw [swapAt]
    cases hj : xs[j]? with
    | none => simp [List.getElem?_cons_succ, hj]
    | some b =>
      simp only [List.getElem?_cons_zero, List.getElem?_cons_succ, hj, List.set]
      exact cons_set_perm xs j b x hj
  | x :: xs, i + 1, 0 => by
    rw [swapAt]
    cases hi : xs[i]? with
    | none => simp [List.getElem?_cons_succ, hi]
    | some a =>
      simp only [List.getElem?_cons_zero, List.getElem?_cons_succ, hi, List.set]
      exact cons_set_perm xs i a x hi
  | x :: xs, i + 1, j + 1 => by
    rw [swapAt]
    cases hi : xs[i]? with
    | none => simp [List.getElem?_cons_succ, hi]
    | some a =>
      cases hj : xs[j]? with
      | none => simp [List.getElem?_cons_succ, hi, hj]
      | some b =>
        simp only [List.getElem?_cons_succ, hi, hj, List.set]
        have h4 : ((xs.set i b).set j a).Perm xs := by
          have h5 := swapAt_perm xs i j
          rwa [swapAt, hi, hj] at h5
        exact h4.cons x

theorem shuffleStep_perm (st : Nat × List α) (i : Nat) :
    List.Perm (shuffleStep st i).2 st.2 :=
  swapAt_perm st.2 i _

theorem foldl_shuffleStep_perm : ∀ (idxs : List Nat) (st : Nat × List α),
    List.Perm (idxs.foldl shuffleStep st).2 st.2
  | [], _ => List.Perm.refl _
  | i :: idxs, st => by
    rw [List.foldl_cons]
    exact (foldl_shuffleStep_perm idxs (shuffleStep st i)).trans
      (shuffleStep_perm st i)

/-- The function `shuffle` only permutes its input. -/
theorem shuffle_perm (seed : Nat) (l : List α) : List.Perm (shuffle seed l) l :=
  foldl_shuffleStep_perm _ _

theorem shuffle_length (seed : Nat) (l : List α) :
    (shuffle seed l).length = l.length :=
  (shuffle_perm seed l).length_eq


end PyRandom

theorem takeStepAux_eq_drop (n : Nat) : ∀ (l : List α) (c : Nat),
    takeStepAux n l c = takeStep n (l.drop c)
  | [], c => by cases c <;> rfl
  | x :: xs, 0 => by rw [List.drop_zero]; rfl
  | x :: xs, c + 1 => by
    rw [takeStepAux, takeStepAux_eq_drop n xs c, List.drop_succ_cons]

theorem takeStep_nil (n : Nat) : takeStep n ([] : List α) = [] := rfl

theorem takeStep_cons (n : Nat) (x : α) (xs : List α) :
    takeStep n (x :: xs) = x :: takeStep n (xs.drop (n - 1)) := by
  rw [takeStep, takeStepAux, takeStepAux_eq_drop]

theorem takeStep_length_aux (n : Nat) (hn : 1 ≤ n) :
    ∀ (k : Nat) (l : List α), l.length ≤ k →
      (takeStep n l).length = (l.length + (n - 1)) / n := by
  intro k
  induction k with
  | zero =>
    intro l hl
    have hnil : l = [] := List.length_eq_zero.mp (Nat.le_zero.mp hl)
    subst hnil
    rw [takeStep_nil]
    simp only [List.length_nil, Nat.zero_add]
    exact (Nat.div_eq_of_lt (by omega)).symm
  | succ k ih =>
    intro l hl
    cases l with
    | nil =>
      rw [takeStep_nil]
      simp only [List.length_nil, Nat.zero_add]
      exact (Nat.div_eq_of_lt (by omega)).symm
    | cons x xs =>
      rw [takeStep_cons]
      simp only [List.length_cons] at hl ⊢
      rw [ih (xs.drop (n - 1)) (by simp [List.length_drop]; omega)]
      rw [List.length_drop]
      have hrhs : xs.length + 1 + (n - 1) = xs.length + n := by omega
      rw [hrhs, Nat.add_div_right _ (by omega : 0 < n)]
      congr 1
      by_cases hc : n - 1 ≤ xs.length
      · have h2 : xs.length - (n - 1) + (n - 1) = xs.length := by omega
        rw [h2]
      · have h1 : xs.length - (n - 1) = 0 := by omega
        rw [h1, Nat.zero_add, Nat.div_eq_of_lt (by omega),
          Nat.div_eq_of_lt (by omega)]

/-- The length of the slice `l[0::n]` is `⌈|l| / n⌉`. -/
theorem takeStep_length (n : Nat) (hn : 1 ≤ n) (l : List α) :
    (takeStep n l).length = (l.length + (n - 1)) / n :=
  takeStep_length_aux n hn l.length l (Nat.le_refl _)

theorem pyChunks_length (l : List α) (n : Nat) : (pyChunks l n).length = n := by
  simp [pyChunks]

/-- The `i`-th chunk is the slice `l[i::n]`. -/
theorem pyChunks_getElem (l : List α) (n i : Nat) (hi : i < n) :
    (pyChunks l n)[i]? = some (takeStep n (l.drop i)) := by
  simp [pyChunks, List.getElem?_map, List.getElem?_range hi]

theorem pyChunks_nil (n : Nat) : (pyChunks ([] : List α) n).flatten = [] := by
  apply List.flatten_eq_nil_iff.mpr
  intro c hc
  simp only [pyChunks, List.mem_map] at hc
  obtain ⟨i, -, hi⟩ := hc
  rw [List.drop_nil, takeStep_nil] at hi
  exact hi.symm

/-- The chunks `[l[i::n] for i in range(n)]` together contain exactly the
elements of `l` (for `n ≥ 1`). -/
theorem pyChunks_flatten_perm (n : Nat) (hn : 1 ≤ n) :
    ∀ (l : List α), List.Perm (pyChunks l n).flatten l := by
  intro l
  induction l with
  | nil => rw [pyChunks_nil]
  | cons x xs ih =>
    obtain ⟨m, rfl⟩ : ∃ m, n = m + 1 := ⟨n - 1, by omega⟩
    have hhead : pyChunks (x :: xs) (m + 1)
        = (x :: takeStep (m + 1) (xs.drop m))
          :: (List.range m).map (fun i => takeStep (m + 1) (xs.drop i)) := by
      rw [pyChunks, List.range_succ_eq_map, List.map_cons, List.map_map,
        List.drop_zero, takeStep_cons, Nat.add_sub_cancel]
      congr 1
    have htail : pyChunks xs (m + 1)
        = ((List.range m).map (fun i => takeStep (m + 1) (xs.drop i)))
          ++ [takeStep (m + 1) (xs.drop m)] := by
      rw [pyChunks, List.range_succ, List.map_append, List.map_singleton]
    rw [hhead]
    simp only [List.flatten_cons, List.cons_append]
    apply List.Perm.cons x
    have h1 : List.Perm
        (takeStep (m + 1) (xs.drop m)
          ++ ((List.range m).map (fun i => takeStep (m + 1) (xs.drop i))).flatten)
        (((List.range m).map (fun i => takeStep (m + 1) (xs.drop i))).flatten
          ++ takeStep (m + 1) (xs.drop m)) := List.perm_append_comm
    refine h1.trans ?_
    have h2 : (pyChunks xs (m + 1)).flatten
        = ((List.range m).map (fun i => takeStep (m + 1) (xs.drop i))).flatten
          ++ takeStep (m + 1) (xs.drop m) := by
      rw [htail, List.flatten_append]
      simp
    rw [← h2]
    exact ih

/-- If an element occurs in two different positions of a list of lists, it
occurs at least twice in the concatenation. -/
theorem count_flatten_two [DecidableEq α] :
    ∀ (L : List (List α)) (i j : Nat) (ci cj : List α) (t : α), i < j →
      L[i]? = some ci → L[j]? = some cj → t ∈ ci → t ∈ cj →
      2 ≤ List.count t L.flatten
  | [], i, j, ci, cj, t, hij, hi, hj, hti, htj => by simp at hi
  | c :: L, 0, j, ci, cj, t, hij, hi, hj, hti, htj => by
    simp only [List.getElem?_cons_zero, Option.some.injEq] at hi
    subst hi
    obtain ⟨j', rfl⟩ : ∃ j', j = j' + 1 := ⟨j - 1, by omega⟩
    simp only [List.getElem?_cons_succ] at hj
    have h1 : 1 ≤ List.count t c := List.count_pos_iff.mpr hti
    have h2 : t ∈ L.flatten := by
      rcases List.getElem?_eq_some.mp hj with ⟨hlt, hget⟩
      exact List.mem_flatten.mpr ⟨cj, hget ▸ List.getElem_mem hlt, htj⟩
    have h3 : 1 ≤ List.count t L.flatten := List.count_pos_iff.mpr h2
    rw [List.flatten_cons, List.count_append]
    omega
  | c :: L, i + 1, j, ci, cj, t, hij, hi, hj, hti, htj => by
    obtain ⟨j', rfl⟩ : ∃ j', j = j' + 1 := ⟨j - 1, by omega⟩
    simp only [List.getElem?_cons_succ] at hi hj
    have := count_flatten_two L i j' ci cj t (by omega) hi hj hti htj
    rw [List.flatten_cons, List.count_append]
    omega

/-- Element `k` of the slice `l[0::n]` is element `k * n` of `l`. -/
theorem takeStep_getElem (n : Nat) (hn : 1 ≤ n) :
    ∀ (k : Nat) (l : List α), (takeStep n l)[k]? = l[k * n]?
  | 0, [] => by rw [takeStep_nil]; simp
  | 0, x :: xs => by rw [takeStep_cons]; simp
  | k + 1, [] => by rw [takeStep_nil]; simp
  | k + 1, x :: xs => by
    rw [takeStep_cons]
    have hidx : (k + 1) * n = ((n - 1) + k * n) + 1 := by
      rw [Nat.succ_mul]
      omega
    rw [hidx]
    simp only [List.getElem?_cons_succ]
    rw [takeStep_getElem n hn k (xs.drop (n - 1)), List.getElem?_drop]


/-! ## The random assignment policy (claims C1 - C4) -/

namespace AdamScript

/-- A chunk handed out by the random policy: its index is below the number
of tutors and its length is the ceiling `⌈(|T| - i) / N⌉` of the strided
slice. -/
theorem randomChunks_getElem_some (S : String) (T : List (String × Team))
    (L : List String) (i : Nat) (r : List Team)
    (h : (randomChunks S T L)[i]? = some r) :
    i < L.length ∧ r.length = ((T.length - i) + (L.length - 1)) / L.length := by
  have hi : i < L.length := by
    rcases List.getElem?_eq_some.mp h with ⟨hlt, -⟩
    rwa [randomChunks, pyChunks_length] at hlt
  refine ⟨hi, ?_⟩
  rw [randomChunks, pyChunks_getElem _ _ _ hi] at h
  obtain rfl := (Option.some.inj h).symm
  rw [takeStep_length _ (by omega), List.length_drop, shuffledTeams,
    PyRandom.shuffle_length, matchedTeams, List.length_map]

/-- Two strided slices of one list differ in length by at most one. -/
theorem strided_balance (len n i j : Nat) (hn : 1 ≤ n) (hj : j < n) :
    ((len - i) + (n - 1)) / n ≤ ((len - j) + (n - 1)) / n + 1 := by
  have key : (len - i) + (n - 1) ≤ ((len - j) + (n - 1)) + n := by omega
  calc ((len - i) + (n - 1)) / n
      ≤ (((len - j) + (n - 1)) + n) / n := Nat.div_le_div_right key
    _ = ((len - j) + (n - 1)) / n + 1 := Nat.add_div_right _ (by omega)

/-- Every successful result of the random policy is one of the chunks. -/
theorem getRelevantTeamsRandom_chunk (S : String) (T : List (String × Team))
    (L : List String) (tutorName : String) (r : List Team)
    (h : getRelevantTeamsRandom S T L tutorName = some r) :
    ∃ i : Nat, (randomChunks S T L)[i]? = some r := by
  rw [getRelevantTeamsRandom] at h
  cases hf : (PyRandom.shuffle (sheetNameSeed S) L).findIdx?
      (fun t => t == tutorName) with
  | none => rw [hf] at h; exact absurd h (by simp)
  | some idx => rw [hf] at h; exact ⟨idx, h⟩

/-- Claim C1: for every sheet name `S`, matched-team list `T` and tutor list
`L`, the random-policy partition is a pure deterministic function of
`(S, T, L)` and of the tutor running it, and it depends on `S` only through
the stable hash-derived seed `sheetNameSeed S` — never on time or other
hidden state.  In this embedding every run is the same pure function, so
two executions on identical inputs are definitionally identical; the
theorem states the stronger fact that even two distinct sheet names with
the same seed give the same partition. -/
theorem random_partition_deterministic (S S' : String)
    (T : List (String × Team)) (L : List String) (tutorName : String)
    (h : sheetNameSeed S = sheetNameSeed S') :
    getRelevantTeamsRandom S T L tutorName
      = getRelevantTeamsRandom S' T L tutorName := by
  unfold getRelevantTeamsRandom randomChunks shuffledTeams
  rw [h]

theorem random_partition_deterministic_witness :
    getRelevantTeamsRandom "Exercise Sheet 7" demoDirs ["tam", "ter"] "tam"
      = getRelevantTeamsRandom "Exercise Sheet 7" demoDirs ["tam", "ter"] "tam" :=
  random_partition_deterministic "Exercise Sheet 7" "Exercise Sheet 7"
    demoDirs ["tam", "ter"] "tam" rfl

/-- Claim C2: any two team lists assigned by the random policy differ in size
by at most one; with 4 matched teams and 2 tutors each assigned list has
exactly 2 teams. -/
theorem random_partition_balanced (S : String) (T : List (String × Team))
    (L : List String) (t1 t2 : String) (r1 r2 : List Team)
    (h1 : getRelevantTeamsRandom S T L t1 = some r1)
    (h2 : getRelevantTeamsRandom S T L t2 = some r2) :
    (r1.length ≤ r2.length + 1 ∧ r2.length ≤ r1.length + 1) ∧
    (T.length = 4 → L.length = 2 → r1.length = 2 ∧ r2.length = 2) := by
  obtain ⟨i1, hc1⟩ := getRelevantTeamsRandom_chunk S T L t1 r1 h1
  obtain ⟨i2, hc2⟩ := getRelevantTeamsRandom_chunk S T L t2 r2 h2
  obtain ⟨hi1, hl1⟩ := randomChunks_getElem_some S T L i1 r1 hc1
  obtain ⟨hi2, hl2⟩ := randomChunks_getElem_some S T L i2 r2 hc2
  constructor
  · rw [hl1, hl2]
    exact ⟨strided_balance T.length L.length i1 i2 (by omega) hi2,
      strided_balance T.length L.length i2 i1 (by omega) hi1⟩
  · intro hT hL
    rw [hT, hL] at hl1 hl2
    rw [hL] at hi1 hi2
    constructor
    · rw [hl1]; omega
    · rw [hl2]; omega

theorem random_partition_balanced_witness :
    ((([teamD, teamC] : List Team)).length ≤ ([teamB, teamA] : List Team).length + 1 ∧
      ([teamB, teamA] : List Team).length ≤ ([teamD, teamC] : List Team).length + 1) ∧
    (demoDirs.length = 4 → (["tam", "ter"] : List String).length = 2 →
      ([teamD, teamC] : List Team).length = 2 ∧ ([teamB, teamA] : List Team).length = 2) :=
  random_partition_balanced "Exercise Sheet 7" demoDirs ["tam", "ter"]
    "tam" "ter" [teamD, teamC] [teamB, teamA] (by decide) (by decide)

/-- Claim C3, counterexample: the chunks of the random policy are *not*
pairwise disjoint for every ordered list of matched Teams.  In the
reachable duplicate-submission case (the warn-and-continue path of
`get_adam_id_to_team_dict` records one roster team under two ADAM ids)
the duplicated team can land in two different strided chunks: on the demo
sheet "Sheet 1" with team A matched twice, both tutors are assigned
team A. -/
theorem random_partition_not_disjoint :
    getRelevantTeamsRandom "Sheet 1" dupDirs ["tam", "ter"] "tam"
      = some [teamA, teamB] ∧
    getRelevantTeamsRandom "Sheet 1" dupDirs ["tam", "ter"] "ter"
      = some [teamA, teamC] ∧
    teamA ∈ ([teamA, teamB] : List Team) ∧
    teamA ∈ ([teamA, teamC] : List Team) := by decide

/-- Claim C3, amended: the strided chunks of the random policy always
cover the matched-team list exactly — their concatenation is a permutation
of it, so every matched-team occurrence is assigned to exactly one
operator and a team is matched iff it lies in some chunk; and when the
matched teams are pairwise distinct (no duplicate submission was
recorded), the chunks are in addition pairwise disjoint. -/
theorem random_partition_cover_disjoint (S : String)
    (T : List (String × Team)) (L : List String) (hL : 1 ≤ L.length) :
    List.Perm (randomChunks S T L).flatten (matchedTeams T) ∧
    (∀ t : Team, t ∈ matchedTeams T ↔ ∃ c ∈ randomChunks S T L, t ∈ c) ∧
    ((matchedTeams T).Nodup →
      ∀ (i j : Nat) (ci cj : List Team), i ≠ j →
        (randomChunks S T L)[i]? = some ci →
        (randomChunks S T L)[j]? = some cj →
        ∀ t : Team, t ∈ ci → t ∉ cj) := by
  have hperm : ((randomChunks S T L).flatten).Perm (matchedTeams T) :=
    (pyChunks_flatten_perm L.length hL _).trans (PyRandom.shuffle_perm _ _)
  refine ⟨hperm, ?_, ?_⟩
  · intro t
    rw [← hperm.mem_iff, List.mem_flatten]
  · intro hnd i j ci cj hij hi hj t hti htj
    have hcount := List.nodup_iff_count_le_one.mp hnd t
    have hpc := hperm.count_eq t
    rcases Nat.lt_or_ge i j with hlt | hge
    · have h2 := count_flatten_two _ i j ci cj t hlt hi hj hti htj
      omega
    · have h2 := count_flatten_two _ j i cj ci t (by omega) hj hi htj hti
      omega

theorem random_partition_cover_disjoint_witness :
    teamB ∈ matchedTeams demoDirs ∧ ¬ teamB ∈ ([teamD, teamC] : List Team) :=
  ⟨by decide,
    (random_partition_cover_disjoint "Exercise Sheet 7" demoDirs
        ["tam", "ter"] (by decide)).2.2 (by decide) 0 1 [teamB, teamA]
      [teamD, teamC] (by decide) (by decide) (by decide) teamB (by decide)⟩

/-- Claim C4, counterexample: the strides of the random policy are *not*
contiguous slices of the shuffled list — concatenating them in order does
not reproduce the shuffled list.  With the demo sheet the shuffled teams
are `[B, D, A, C]` but the chunks are `[[B, A], [D, C]]`, concatenating to
`[B, A, D, C]`. -/
theorem random_chunks_not_contiguous :
    (randomChunks "Exercise Sheet 7" demoDirs ["tam", "ter"]).flatten
      ≠ shuffledTeams "Exercise Sheet 7" demoDirs := by decide

/-- Claim C4, amended: after the seeded shuffle the list is split into `N`
*strided*, near-equal slices (`N` = number of tutors): the `k`-th element
of stride `i` is the shuffled element at position `i + k * N` (Python's
`l[i::N]`), and the strides together partition the shuffled list — their
concatenation is a permutation of it, though not equal to it. -/
theorem random_chunks_strided (S : String) (T : List (String × Team))
    (L : List String) (hL : 1 ≤ L.length) :
    List.Perm (randomChunks S T L).flatten (shuffledTeams S T) ∧
    ∀ (i : Nat) (ci : List Team) (k : Nat),
      (randomChunks S T L)[i]? = some ci →
      ci[k]? = (shuffledTeams S T)[i + k * L.length]? := by
  constructor
  · exact pyChunks_flatten_perm L.length hL _
  · intro i ci k hci
    have hi : i < L.length := by
      rcases List.getElem?_eq_some.mp hci with ⟨hlt, -⟩
      rwa [randomChunks, pyChunks_length] at hlt
    rw [randomChunks, pyChunks_getElem _ _ _ hi] at hci
    obtain rfl := (Option.some.inj hci).symm
    rw [takeStep_getElem _ (by omega) k, List.getElem?_drop]

theorem random_chunks_strided_witness :
    ([teamD, teamC] : List Team)[0]?
      = (shuffledTeams "Exercise Sheet 7" demoDirs)[1 + 0 * 2]? :=
  (random_chunks_strided "Exercise Sheet 7" demoDirs ["tam", "ter"]
      (by decide)).2 1 [teamD, teamC] 0 (by decide)

end AdamScript

/-! ## Roster matching (claims C5, C6, C8) -/

namespace AdamScript

/-- Claim C5: under the spec's standing assumption that the roster was
validated upstream (no student is in two teams, so at most one roster team
matches an uploader email), the matcher either records exactly the one
roster team containing the email or aborts with the `UnknownStudent`
critical error — a submission directory is never left with zero matches
silently. -/
theorem matching_totality (rosterTeams : List Team) (email : String)
    (h : (matchingTeams rosterTeams email).length ≤ 1) :
    (matchingTeams rosterTeams email = [] ∧
      matchSubmission rosterTeams email
        = .error (.unknownStudent email)) ∨
    (∃ t, matchingTeams rosterTeams email = [t] ∧
      matchSubmission rosterTeams email = .ok t) := by
  cases hm : matchingTeams rosterTeams email with
  | nil => exact Or.inl ⟨rfl, by simp [matchSubmission, hm]⟩
  | cons t rest =>
    cases rest with
    | nil => exact Or.inr ⟨t, rfl, by simp [matchSubmission, hm]⟩
    | cons t2 r2 => rw [hm] at h; simp at h

theorem matching_totality_witness :
    (matchingTeams [teamAB, teamC] "zoe@uni.ch" = [] ∧
      matchSubmission [teamAB, teamC] "zoe@uni.ch"
        = .error (.unknownStudent "zoe@uni.ch")) ∨
    (∃ t, matchingTeams [teamAB, teamC] "zoe@uni.ch" = [t] ∧
      matchSubmission [teamAB, teamC] "zoe@uni.ch" = .ok t) :=
  matching_totality [teamAB, teamC] "zoe@uni.ch" (by decide)

/-- Claim C6, counterexample: key assignment renames `"Team 12345"` to
`"12345"`, but a second run on the already renamed directory is *not* a
no-op: `"12345".split(" ")` has no second field, so the rename step raises
`IndexError` instead of matching nothing and leaving the name alone. -/
theorem key_assignment_not_idempotent :
    keyAssignName "Team 12345".data = .ok "12345".data ∧
    keyAssignName "12345".data = .error .indexError ∧
    ¬ keyAssignName "12345".data = .ok "12345".data := by decide

theorem pySplit_no_sep (sep : Char) : ∀ (cs : List Char), sep ∉ cs →
    pySplit sep cs = [cs]
  | [], _ => rfl
  | c :: rest, h => by
    have hc : ¬ c = sep := fun hh => h (hh ▸ List.mem_cons_self c rest)
    have hr : sep ∉ rest := fun hm => h (List.mem_cons_of_mem c hm)
    rw [pySplit, pySplit_no_sep sep rest hr]
    simp [hc]

theorem pySplit_append_sep (sep : Char) : ∀ (w r : List Char), sep ∉ w →
    pySplit sep (w ++ sep :: r) = w :: pySplit sep r
  | [], r, _ => by simp [pySplit]
  | c :: w, r, h => by
    have hc : ¬ c = sep := fun hh => h (hh ▸ List.mem_cons_self c w)
    have hw : sep ∉ w := fun hm => h (List.mem_cons_of_mem c hm)
    rw [List.cons_append, pySplit, pySplit_append_sep sep w r hw]
    simp [hc]

/-- Claim C6, amended: re-running key assignment on an already-renamed
submission directory is not a silent no-op but a hard failure: the first
run renames `"Team " ++ id` to `id`, and the second run on `id` (which
contains no space) raises `IndexError` — the normalizer aborts rather than
renaming anything again, so it is not idempotent on its own output. -/
theorem key_assignment_rerun (teamId : List Char) (h : ' ' ∉ teamId) :
    keyAssignName ("Team ".data ++ teamId) = .ok teamId ∧
    keyAssignName teamId = .error .indexError := by
  have hw : (' ' : Char) ∉ "Team".data := by decide
  constructor
  · have heq : "Team ".data ++ teamId = "Team".data ++ ' ' :: teamId := rfl
    rw [keyAssignName, heq, pySplit_append_sep ' ' "Team".data teamId hw,
      pySplit_no_sep ' ' teamId h]
    rfl
  · rw [keyAssignName, pySplit_no_sep ' ' teamId h]
    rfl

theorem key_assignment_rerun_witness :
    keyAssignName ("Team ".data ++ "12345".data) = .ok "12345".data ∧
    keyAssignName "12345".data = .error .indexError :=
  key_assignment_rerun "12345".data (by decide)

end AdamScript

namespace AdamScript

theorem resolveTeam_matchSubmission (rosterTeams : List Team) (email : String)
    (t : Team) (h : resolveTeam rosterTeams email = some t) :
    matchSubmission rosterTeams email = .ok t := by
  rw [resolveTeam] at h
  cases hm : matchingTeams rosterTeams email with
  | nil => rw [hm] at h; exact absurd h (by simp)
  | cons a rest =>
    cases rest with
    | nil =>
      rw [hm] at h
      have ha : a = t := by simpa using h
      subst ha
      simp [matchSubmission, hm]
    | cons b r2 => rw [hm] at h; exact absurd h (by simp)

theorem run_nil (rosterTeams : List Team) (dict : List (String × Team))
    (warns : List Warning) :
    getAdamIdToTeamDict rosterTeams [] dict warns = .ok (dict, warns) := rfl

theorem run_cons_ok (rosterTeams : List Team) (teamId email : String)
    (t : Team) (rest : List (String × String)) (dict : List (String × Team))
    (warns : List Warning) (h : matchSubmission rosterTeams email = .ok t) :
    getAdamIdToTeamDict rosterTeams ((teamId, email) :: rest) dict warns
      = getAdamIdToTeamDict rosterTeams rest (dictUpdate dict teamId t)
          (warns ++ (dict.filter (fun p => p.2 == t)).map
            (fun p => Warning.duplicateTeamSubmission p.1 teamId)) := by
  rw [getAdamIdToTeamDict, h]

theorem dictUpdate_append (d : List (String × Team)) (k : String) (v : Team)
    (hk : k ∉ d.map Prod.fst) : dictUpdate d k v = d ++ [(k, v)] := by
  have hcond : ¬ (d.any (fun p => p.1 == k) = true) := by
    intro hc
    rcases List.any_eq_true.mp hc with ⟨p, hp, hpk⟩
    exact hk (List.mem_map.mpr ⟨p, hp, by simpa using hpk⟩)
  rw [dictUpdate, if_neg hcond]

theorem dictUpdate_mem (d : List (String × Team)) (k id1 : String)
    (v t : Team) (hmem : (id1, t) ∈ d) (hne : id1 ≠ k) :
    (id1, t) ∈ dictUpdate d k v := by
  rw [dictUpdate]
  by_cases hb : d.any (fun p => p.1 == k) = true
  · rw [if_pos hb]
    exact List.mem_map.mpr ⟨(id1, t), hmem, by simp [hne]⟩
  · rw [if_neg hb]
    exact List.mem_append_left _ hmem

theorem run_warns_mono (rosterTeams : List Team) :
    ∀ (subs : List (String × String)) (dict : List (String × Team))
      (warns : List Warning) (res : List (String × Team) × List Warning),
      getAdamIdToTeamDict rosterTeams subs dict warns = .ok res →
      ∀ w ∈ warns, w ∈ res.2
  | [], dict, warns, res, h, w, hw => by
    rw [run_nil] at h
    cases h
    exact hw
  | (teamId, email) :: rest, dict, warns, res, h, w, hw => by
    cases hm : matchSubmission rosterTeams email with
    | error err =>
      rw [getAdamIdToTeamDict, hm] at h
      exact absurd h (by simp)
    | ok t =>
      rw [run_cons_ok rosterTeams teamId email t rest dict warns hm] at h
      exact run_warns_mono rosterTeams rest _ _ res h w
        (List.mem_append_left _ hw)

theorem map_fst_resolvedEntry (rosterTeams : List Team)
    (l : List (String × String)) :
    (l.map (resolvedEntry rosterTeams)).map Prod.fst = l.map Prod.fst := by
  rw [List.map_map]
  apply List.map_congr_left
  intro p _
  rfl

theorem run_append (rosterTeams : List Team) :
    ∀ (pre rest : List (String × String)) (dict : List (String × Team))
      (warns : List Warning),
      (∀ p ∈ pre, (resolveTeam rosterTeams p.2).isSome) →
      (dict.map Prod.fst ++ pre.map Prod.fst).Nodup →
      ∃ warns2,
        getAdamIdToTeamDict rosterTeams (pre ++ rest) dict warns
          = getAdamIdToTeamDict rosterTeams rest
              (dict ++ pre.map (resolvedEntry rosterTeams)) warns2
  | [], rest, dict, warns, _, _ => ⟨warns, by simp⟩
  | (teamId, email) :: pre, rest, dict, warns, hall, hnd => by
    obtain ⟨t, ht⟩ : ∃ t, resolveTeam rosterTeams email = some t :=
      Option.isSome_iff_exists.mp (hall (teamId, email) (List.mem_cons_self _ _))
    have hmatch := resolveTeam_matchSubmission rosterTeams email t ht
    have hkey : teamId ∉ dict.map Prod.fst := by
      intro hk
      rcases List.nodup_append.mp hnd with ⟨-, -, hdisj⟩
      exact hdisj hk (by simp)
    have hall' : ∀ p ∈ pre, (resolveTeam rosterTeams p.2).isSome :=
      fun p hp => hall p (List.mem_cons_of_mem _ hp)
    have hnd' : ((dict ++ [(teamId, t)]).map Prod.fst
        ++ pre.map Prod.fst).Nodup := by
      simpa [List.map_append, List.append_assoc] using hnd
    obtain ⟨warns2, hrec⟩ := run_append rosterTeams pre rest
      (dict ++ [(teamId, t)])
      (warns ++ (dict.filter (fun p => p.2 == t)).map
        (fun p => Warning.duplicateTeamSubmission p.1 teamId)) hall' hnd'
    refine ⟨warns2, ?_⟩
    rw [List.cons_append,
      run_cons_ok rosterTeams teamId email t (pre ++ rest) dict warns hmatch,
      dictUpdate_append dict teamId t hkey, hrec]
    rw [List.append_assoc, List.map_cons]
    simp [resolvedEntry, ht]

theorem run_warn_mem (rosterTeams : List Team) (id1 : String) (t : Team) :
    ∀ (subs : List (String × String)) (dict : List (String × Team))
      (warns : List Warning) (id2 e2 : String)
      (res : List (String × Team) × List Warning),
      (id1, t) ∈ dict → (id2, e2) ∈ subs →
      resolveTeam rosterTeams e2 = some t →
      id1 ∉ subs.map Prod.fst →
      getAdamIdToTeamDict rosterTeams subs dict warns = .ok res →
      Warning.duplicateTeamSubmission id1 id2 ∈ res.2
  | [], _, _, _, _, _, _, hmem2, _, _, _ => absurd hmem2 (List.not_mem_nil _)
  | (tid, e) :: rest, dict, warns, id2, e2, res, hd, hmem2, ht2, hid, hrun => by
    cases hm : matchSubmission rosterTeams e with
    | error err =>
      rw [getAdamIdToTeamDict, hm] at hrun
      exact absurd hrun (by simp)
    | ok u =>
      rw [run_cons_ok rosterTeams tid e u rest dict warns hm] at hrun
      rcases List.mem_cons.mp hmem2 with heq | hmem2'
      · have hpair : id2 = tid ∧ e2 = e := Prod.mk.injEq .. ▸ heq
        obtain ⟨rfl, rfl⟩ := hpair
        have hu : u = t := by
          have hms := resolveTeam_matchSubmission rosterTeams e2 t ht2
          rw [hm] at hms
          exact Except.ok.inj hms
        subst hu
        have hw : Warning.duplicateTeamSubmission id1 id2 ∈
            warns ++ (dict.filter (fun p => p.2 == u)).map
              (fun p => Warning.duplicateTeamSubmission p.1 id2) := by
          apply List.mem_append_right
          apply List.mem_map.mpr
          exact ⟨(id1, u), List.mem_filter.mpr ⟨hd, by simp⟩, rfl⟩
        exact run_warns_mono rosterTeams rest _ _ res hrun _ hw
      · have hne : id1 ≠ tid := by
          intro hh
          exact hid (by rw [List.map_cons]; exact hh ▸ List.mem_cons_self _ _)
        have hd' : (id1, t) ∈ dictUpdate dict tid u :=
          dictUpdate_mem dict tid id1 u t hd hne
        have hid' : id1 ∉ rest.map Prod.fst := by
          intro hh
          apply hid
          rw [List.map_cons]
          exact List.mem_cons_of_mem _ hh
        exact run_warn_mem rosterTeams id1 t rest _ _ id2 e2 res hd' hmem2'
          ht2 hid' hrun

theorem lookup_map_resolvedEntry (rosterTeams : List Team) :
    ∀ (subs : List (String × String)) (k e : String),
      (subs.map Prod.fst).Nodup → (k, e) ∈ subs →
      (subs.map (resolvedEntry rosterTeams)).lookup k
        = some ((resolveTeam rosterTeams e).getD [])
  | [], k, e, _, hmem => absurd hmem (List.not_mem_nil _)
  | (a, b) :: rest, k, e, hnd, hmem => by
    rcases List.mem_cons.mp hmem with heq | hmem'
    · have hpair : k = a ∧ e = b := Prod.mk.injEq .. ▸ heq
      obtain ⟨rfl, rfl⟩ := hpair
      simp [resolvedEntry, List.lookup]
    · have hk : (k == a) = false := by
        apply beq_false_of_ne
        intro hh
        subst hh
        rw [List.map_cons] at hnd
        exact (List.nodup_cons.mp hnd).1
          (List.mem_map.mpr ⟨(k, e), hmem', rfl⟩)
      rw [List.map_cons, List.lookup, resolvedEntry, hk]
      exact lookup_map_resolvedEntry rosterTeams rest k e
        (by rw [List.map_cons] at hnd; exact (List.nodup_cons.mp hnd).2) hmem'

end AdamScript

namespace AdamScript

/-- Claim C8: if two submission directories with different ADAM ids (`id1`
processed first, `id2` later) both resolve to the same roster team `t`,
`get_adam_id_to_team_dict` completes (no failure, no merge), emits the
"multiple submissions for one team under separate ADAM IDs" warning for the
pair, and the final id-to-team dict maps both ids to `t`. -/
theorem duplicate_team_submission (rosterTeams : List Team)
    (pre post : List (String × String)) (id1 e1 id2 e2 : String) (t : Team)
    (hall : ∀ p ∈ pre ++ (id1, e1) :: post,
      (resolveTeam rosterTeams p.2).isSome)
    (hnd : ((pre ++ (id1, e1) :: post).map Prod.fst).Nodup)
    (h2 : (id2, e2) ∈ post)
    (ht1 : resolveTeam rosterTeams e1 = some t)
    (ht2 : resolveTeam rosterTeams e2 = some t) :
    ∃ dict warns,
      getAdamIdToTeamDict rosterTeams (pre ++ (id1, e1) :: post) [] []
        = .ok (dict, warns) ∧
      dict.lookup id1 = some t ∧ dict.lookup id2 = some t ∧
      Warning.duplicateTeamSubmission id1 id2 ∈ warns := by
  obtain ⟨warnsA, hA⟩ := run_append rosterTeams (pre ++ (id1, e1) :: post)
    [] [] [] hall (by simpa using hnd)
  rw [run_nil] at hA
  simp only [List.nil_append, List.append_nil] at hA
  refine ⟨(pre ++ (id1, e1) :: post).map (resolvedEntry rosterTeams),
    warnsA, hA, ?_, ?_, ?_⟩
  · have := lookup_map_resolvedEntry rosterTeams (pre ++ (id1, e1) :: post)
      id1 e1 hnd (List.mem_append_right _ (List.mem_cons_self _ _))
    rw [this, ht1]
    rfl
  · have := lookup_map_resolvedEntry rosterTeams (pre ++ (id1, e1) :: post)
      id2 e2 hnd (List.mem_append_right _ (List.mem_cons_of_mem _ h2))
    rw [this, ht2]
    rfl
  · -- decompose the run at the first duplicate id
    have hallPre : ∀ p ∈ pre, (resolveTeam rosterTeams p.2).isSome :=
      fun p hp => hall p (List.mem_append_left _ hp)
    have hndSplit := hnd
    rw [List.map_append] at hndSplit
    rcases List.nodup_append.mp hndSplit with ⟨hndPre, hndMid, hdisj⟩
    obtain ⟨warns1, hB⟩ := run_append rosterTeams pre ((id1, e1) :: post)
      [] [] hallPre (by simpa using hndPre)
    have hkey1 : id1 ∉ (([] : List (String × Team))
        ++ pre.map (resolvedEntry rosterTeams)).map Prod.fst := by
      rw [List.nil_append, map_fst_resolvedEntry]
      intro hk
      rw [List.map_cons] at hndMid
      exact hdisj hk (List.mem_cons_self _ _)
    rw [run_cons_ok rosterTeams id1 e1 t post _ warns1
      (resolveTeam_matchSubmission rosterTeams e1 t ht1),
      dictUpdate_append _ _ _ hkey1] at hB
    rw [hB] at hA
    have hid1post : id1 ∉ post.map Prod.fst := by
      rw [List.map_cons] at hndMid
      exact (List.nodup_cons.mp hndMid).1
    exact run_warn_mem rosterTeams id1 t post _ _ id2 e2 _
      (List.mem_append_right _ (List.mem_cons_self _ _)) h2 ht2 hid1post hA

theorem duplicate_team_submission_witness :
    ∃ dict warns,
      getAdamIdToTeamDict [teamAB, teamC]
          ([] ++ ("20001", "alice@uni.ch") :: [("20002", "bob@uni.ch")]) [] []
        = .ok (dict, warns) ∧
      dict.lookup "20001" = some teamAB ∧
      dict.lookup "20002" = some teamAB ∧
      Warning.duplicateTeamSubmission "20001" "20002" ∈ warns :=
  duplicate_team_submission [teamAB, teamC] [] [("20002", "bob@uni.ch")]
    "20001" "alice@uni.ch" "20002" "bob@uni.ch" teamAB (by decide)
    (by decide) (by decide) (by decide) (by decide)

end AdamScript

/-! ## Metadata loading, archive shape, team equality (claims C7, C9, C10) -/

namespace Krummstab

/-- Claim C7, counterexample: `Sheet._load` performs no shape validation: the
schema-invalid sheet record `{}` (an object without `adam_sheet_name`)
loads successfully with both fields `None` instead of failing with
`CorruptMetadata`. -/
theorem sheet_load_no_validation :
    sheetRecordSchemaValid (Json.obj []) = false ∧
    sheetLoad (Json.obj []) = .ok ⟨none, none⟩ :=
  ⟨rfl, rfl⟩

/-- Claim C7, amended: only the per-submission record is schema-validated:
`Submission._load` fails with the critical "does not have the right
format" error (the spec's `CorruptMetadata`) exactly on records that do
not match the submission-info schema, while the sheet-level record
(`sheet.json`) is read back by `Sheet._load` without any shape validation
— every JSON object loads, missing fields becoming `None`.  Writes are
plain whole-file serializations of fully built records; within the
sequential pipeline a later reader sees the complete record. -/
theorem metadata_loading (j : Json) :
    (submissionLoad j = .error .corruptMetadata ↔
      submissionRecordSchemaValid j = false) ∧
    (∀ fields : List (String × Json), ∃ r, sheetLoad (Json.obj fields) = .ok r) := by
  constructor
  · constructor
    · intro he
      by_contra hne
      have hv : submissionRecordSchemaValid j = true := by
        cases hb : submissionRecordSchemaValid j
        · exact absurd hb hne
        · rfl
      cases j with
      | obj fields =>
        rw [submissionLoad, if_pos hv] at he
        simp at he
      | null => simp [submissionRecordSchemaValid] at hv
      | bool b => simp [submissionRecordSchemaValid] at hv
      | num n => simp [submissionRecordSchemaValid] at hv
      | str s => simp [submissionRecordSchemaValid] at hv
      | arr es => simp [submissionRecordSchemaValid] at hv
    · intro hv
      cases j with
      | obj fields => rw [submissionLoad, if_neg (by simp [hv])]
      | null => rfl
      | bool b => rfl
      | num n => rfl
      | str s => rfl
      | arr es => rfl
  · intro fields
    exact ⟨_, rfl⟩

theorem metadata_loading_witness :
    (submissionLoad (Json.obj []) = .error .corruptMetadata ↔
      submissionRecordSchemaValid (Json.obj []) = false) ∧
    (∀ fields : List (String × Json), ∃ r, sheetLoad (Json.obj fields) = .ok r) :=
  metadata_loading (Json.obj [])

theorem extract_shape_error (zipEntries : List Entry) (targetExists : Bool)
    (h : singleDirRoot (filteredExtract zipEntries) = false) :
    extractAdamZip zipEntries targetExists = .error .unexpectedZipStructure := by
  rcases hfe : filteredExtract zipEntries with _ | ⟨e, rest⟩
  · rw [extractAdamZip, hfe]
  · rcases e with nm | ⟨nm, cs⟩
    · rcases rest with _ | ⟨e2, rest2⟩
      · rw [extractAdamZip, hfe]
      · rw [extractAdamZip, hfe]
    · rcases rest with _ | ⟨e2, rest2⟩
      · rw [hfe] at h
        simp [singleDirRoot, Entry.isDir] at h
      · rw [extractAdamZip, hfe]

/-- Claim C9: if, after extraction and junk filtering, the immediate
contents of the extracted root do not consist of exactly one subdirectory,
the pipeline fails with the `UnexpectedArchiveShape` hard error
(`errors.unexpected_zip_structure`), and the failure short-circuits the
whole `init` chain: no matching runs, no assignment decision is made, and
no sheet metadata record (which exists only inside an `.ok` outcome) is
written. -/
theorem archive_shape_guard (zipEntries : List Entry) (targetExists : Bool)
    (rosterTeams : List AdamScript.Team)
    (h : singleDirRoot (filteredExtract zipEntries) = false) :
    initPipeline zipEntries targetExists rosterTeams
      = .error .unexpectedZipStructure := by
  have hext := extract_shape_error zipEntries targetExists h
  rw [initPipeline, hext]
  rfl

theorem archive_shape_guard_witness :
    initPipeline [Entry.dir "TeamsA" [], Entry.dir "TeamsB" []] false []
      = .error .unexpectedZipStructure :=
  archive_shape_guard [Entry.dir "TeamsA" [], Entry.dir "TeamsB" []] false []
    (by decide)

theorem studentListEq_iff : ∀ (xs ys : List Student),
    studentListEq xs ys = true ↔ xs.map Student.email = ys.map Student.email
  | [], [] => by simp [studentListEq]
  | [], y :: ys => by simp [studentListEq]
  | x :: xs, [] => by simp [studentListEq]
  | x :: xs, y :: ys => by
    simp [studentListEq, studentEq, studentListEq_iff xs ys]

theorem map_email_mergeSort (ms : List Student) :
    (ms.mergeSort (fun x y => decide (x.email ≤ y.email))).map Student.email
      = (ms.map Student.email).mergeSort (fun x y => decide (x ≤ y)) := by
  apply List.eq_of_perm_of_sorted (r := (· ≤ · : String → String → Prop))
  · exact ((List.mergeSort_perm ms _).map Student.email).trans
      (List.mergeSort_perm (ms.map Student.email) _).symm
  · have hp : List.Pairwise
        (fun a b : Student => (decide (a.email ≤ b.email)) = true)
        (ms.mergeSort (fun x y => decide (x.email ≤ y.email))) := by
      apply List.sorted_mergeSort
      · intro a b c h1 h2
        simp only [decide_eq_true_eq] at h1 h2 ⊢
        exact le_trans h1 h2
      · intro a b
        simp [le_total]
    exact List.pairwise_map.mpr (hp.imp (fun h => of_decide_eq_true h))
  · exact List.sorted_mergeSort' (ms.map Student.email)

/-- Claim C10: `Team.__eq__` holds iff the two member lists carry the same
sorted list of email addresses.  The `adam_id` tag, the order in which the
members were supplied, and the members' first and last names do not occur
on either side of the equivalence, so none of them affects team
equality. -/
theorem team_eq_iff_sorted_emails (a b : Team) :
    teamEq a b = true ↔ sortedEmails a = sortedEmails b := by
  rw [teamEq, studentListEq_iff, sortedEmails, sortedEmails,
    map_email_mergeSort, map_email_mergeSort]

end Krummstab
